import Mathlib

/-!
Shallow embedding of the profile-matching service
(`match_service/utils.py`, `match_service/profile_schema.py`,
`match_service/constants.py`, `match_service/specifications.py`).

Modelling conventions:
* Python `datetime.date` values are modelled as integers (day numbers in an
  arbitrary linear calendar); `(end - start).days` becomes integer subtraction.
* Python `float` arithmetic in `round(days / 365, 1)` is modelled exactly over
  `ℚ` as `round (10 * days / 365) / 10`.  For an integer number of days the
  quantity `10 * d / 365 = 2 * d / 73` is never an exact half-integer (73 is
  odd and coprime to 4), so Python's round-half-to-even and Mathlib's
  round-half-up agree on every reachable input.
* Python `set` / `frozenset` values are modelled as `Finset String`.
* Code that can raise an exception (`IndexError` on `intervals[0]` for an
  empty list, `TypeError` on `None` arithmetic, `ValueError` / `KeyError` in
  the factory) is modelled with `Option` / `Except`: a `none` / `.error`
  result marks the raising execution.
* `print` side effects inside specification evaluation are modelled as a list
  of structured `Msg` events accumulated alongside the boolean verdict; the
  exact message text is abstracted, one constructor per print site, keeping
  the interpolated candidate name where the source prints one.
-/

namespace MatchService

/-- A half-open-by-convention date interval `[start, end]`, as the two-element
lists handled by `merge_intervals` in `utils.py`. -/
abbrev Interval : Type := ℤ × ℤ

/-- Tail loop of `merge_intervals` (`utils.py` lines 23-29): `cur` is the last
interval of `non_overlapping_intervals`, already-emitted intervals are returned
in front of it.  `if start <= previous_end` extends the current interval's end
to `max previous_end end`, otherwise the current interval is emitted and the
new one becomes current. -/
def mergeAux (cur : Interval) : List Interval → List Interval
  | [] => [cur]
  | (s, e) :: rest =>
    if s ≤ cur.2 then mergeAux (cur.1, max cur.2 e) rest
    else cur :: mergeAux (s, e) rest

/-- `merge_intervals` (`utils.py` lines 16-31).  The Python body starts with
`non_overlapping_intervals = [intervals[0]]`, which raises `IndexError` on an
empty list; the raising execution is modelled by `none`. -/
def merge_intervals : List Interval → Option (List Interval)
  | [] => none
  | i :: rest => some (mergeAux i rest)

/-- Total day span of a list of intervals, as summed by the
`for start, end in intervals` loop of `Profile.count_years_of_experience`
(`profile_schema.py` lines 90-94): each interval contributes
`(end - start).days`. -/
def sumDays (intervals : List Interval) : ℤ :=
  (intervals.map fun i => i.2 - i.1).sum

/-- `constants.NUMBER_OF_DAYS_IN_ONE_YEAR`. -/
def NUMBER_OF_DAYS_IN_ONE_YEAR : ℤ := 365

/-- `round(days_of_experience / constants.NUMBER_OF_DAYS_IN_ONE_YEAR, 1)`
(`profile_schema.py` lines 97-99), modelled exactly over `ℚ`:
rounding to one decimal place is rounding `10 * x` to an integer and dividing
by ten.  See the header note for why round-half-up is exact here. -/
def roundedYears (days : ℤ) : ℚ :=
  ((round ((days : ℚ) * 10 / (NUMBER_OF_DAYS_IN_ONE_YEAR : ℚ)) : ℤ) : ℚ) / 10

/-- `Location` (`profile_schema.py` lines 9-11). -/
structure Location where
  city : String
  country : String
deriving DecidableEq, Repr

/-- `Experience` (`profile_schema.py` lines 14-21) exactly as declared by the
pydantic schema: `ends_at: Optional[date]` is still optional, since the
construction-time normalization lives in the `Profile` validator. -/
structure RawExperience where
  companyName : String
  jobTitle : String
  description : String
  skills : List String
  startsAt : ℤ
  endsAt : Option ℤ
  location : Location
deriving DecidableEq, Repr

/-- An `Experience` after the validator's normalization pass, when its
`ends_at` has been populated: the shape assumed by every derived query
(`get_n_last_experiences`, `count_years_of_experience`) and by specification
evaluation, all of which read `ends_at` as a date. -/
structure Experience where
  companyName : String
  jobTitle : String
  description : String
  skills : List String
  startsAt : ℤ
  endsAt : ℤ
  location : Location
deriving DecidableEq, Repr

/-- View of a raw experience as a normalized one; `none` when `ends_at` was
never populated. -/
def RawExperience.normalize (e : RawExperience) : Option Experience :=
  e.endsAt.map fun d =>
    { companyName := e.companyName, jobTitle := e.jobTitle,
      description := e.description, skills := e.skills,
      startsAt := e.startsAt, endsAt := d, location := e.location }

/-- The `for idx, experience in enumerate(experiences)` loop of
`Profile.check_start_date_precedes_end_date` (`profile_schema.py` lines
41-51).  The CPython list iterator yields `experiences[idx]` for
`idx = 0, 1, 2, ...` against the *current* state of the list and stops once
`idx` reaches the current length; the iterator position advances after every
yield, whether or not the visited entry was removed.  Consequently each step
acts only on the not-yet-visited suffix: the visited entry has its `None`
`ends_at` populated with today's date in place; if it then violates
`starts_at < ends_at` it is removed with `del experiences[idx]`, which shifts
the next entry into slot `idx`, where the advancing iterator never examines
it — that entry is kept untouched (in particular un-normalized) and the loop
resumes one entry later. -/
def checkLoop (today : ℤ) : List RawExperience → List RawExperience
  | [] => []
  | e :: rest =>
    let endVal : ℤ :=
      match e.endsAt with
      | none => today
      | some d => d
    if endVal ≤ e.startsAt then
      match rest with
      | [] => []
      | skipped :: rest' => skipped :: checkLoop today rest'
    else
      { e with endsAt := some endVal } :: checkLoop today rest

/-- `Profile.check_start_date_precedes_end_date` (`profile_schema.py` lines
32-53), as the transformation it applies to the `experiences` list.
`today` stands for `date.today()`. -/
def check_start_date_precedes_end_date (today : ℤ) (l : List RawExperience) :
    List RawExperience :=
  checkLoop today l

/-- `Profile` (`profile_schema.py` lines 24-30) in its post-validation shape
used by the derived queries and the specifications. -/
structure Profile where
  firstName : String
  lastName : String
  skills : List String
  description : String
  location : Location
  experiences : List Experience
deriving DecidableEq, Repr

/-- `Profile._get_experiences_sorted_by` (`profile_schema.py` lines 102-111):
`sorted` with a key function.  Python's `sorted` is a stable sort; so is
`List.insertionSort` with the reflexive key comparison used here, and any two
stable sorts for the same key agree, so this is a faithful model. -/
def getExperiencesSortedBy (key : Experience → ℤ) (l : List Experience) :
    List Experience :=
  List.insertionSort (fun a b => key a ≤ key b) l

/-- `Profile.get_n_last_experiences` (`profile_schema.py` lines 55-71):
sort ascending by `ends_at`; if the candidate has at most `n` experiences
return the sorted list as is, otherwise return the slice
`sorted[-1 : -n - 1 : -1]`, i.e. the last `n` elements in reverse. -/
def Profile.get_n_last_experiences (p : Profile) (n : ℕ) : List Experience :=
  let sortedExperiences := getExperiencesSortedBy (fun e => e.endsAt) p.experiences
  if sortedExperiences.length ≤ n then sortedExperiences
  else (sortedExperiences.drop (sortedExperiences.length - n)).reverse

/-- `Profile.count_years_of_experience` (`profile_schema.py` lines 73-100):
sort by `starts_at`, build `[starts_at, ends_at]` intervals, merge them unless
overlapping experiences are to be counted, sum the day spans and round to one
decimal place of years.  The unguarded `merge_intervals` call propagates the
empty-list `IndexError` (`none`). -/
def Profile.count_years_of_experience (p : Profile)
    (countOverlappingExperiences : Bool) : Option ℚ :=
  let sortedExperiences := getExperiencesSortedBy (fun e => e.startsAt) p.experiences
  let intervals : List Interval := sortedExperiences.map fun e => (e.startsAt, e.endsAt)
  let merged := if countOverlappingExperiences then some intervals
                else merge_intervals intervals
  merged.map fun ivs => roundedYears (sumDays ivs)

/-- Python's `str.lower`, modelled as the ASCII character-wise case mapping
over the string's character list (the strings handled by the service are
plain names and skill labels). -/
def pyLower (s : String) : String :=
  String.mk (s.data.map Char.toLower)

/-- Python's `str.upper`, ASCII character-wise over the character list. -/
def pyUpper (s : String) : String :=
  String.mk (s.data.map Char.toUpper)

/-- `utils.LowerCaseFrozenSet` (`utils.py` lines 34-41):
`set(map(methodcaller('lower'), data))`. -/
def LowerCaseFrozenSet (data : List String) : Finset String :=
  (data.map pyLower).toFinset

/-- `utils.has_intersection_or_is_subset` (`utils.py` lines 44-57).
`number_of_hits` is `Union[int, None]`; the guard `if number_of_hits:` is
Python truthiness, satisfied only by a present *and nonzero* count. -/
def has_intersection_or_is_subset (setToEvaluate requiredSet : Finset String)
    (numberOfHits : Option ℤ) : Bool :=
  match numberOfHits with
  | some k =>
    if k ≠ 0 then decide (((setToEvaluate ∩ requiredSet).card : ℤ) = k)
    else decide (requiredSet ⊆ setToEvaluate)
  | none => decide (requiredSet ⊆ setToEvaluate)

/-- `utils.comparison_functions` (`utils.py` lines 7-13): operand strings map
to comparison functions; an unknown key raises `KeyError` at lookup time,
modelled by `none`. -/
def comparison_functions (op : String) : Option (ℚ → ℚ → Bool) :=
  if op = ">" then some fun x y => decide (x > y)
  else if op = ">=" then some fun x y => decide (x ≥ y)
  else if op = "<" then some fun x y => decide (x < y)
  else if op = "<=" then some fun x y => decide (x ≤ y)
  else if op = "==" then some fun x y => decide (x = y)
  else none

/-- `constants.EU_COUNTRIES`. -/
def EU_COUNTRIES : Finset String :=
  {"Austria", "Belgium", "Bulgaria", "Croatia", "Cyprus", "Czech Republic",
   "Denmark", "Estonia", "Finland", "France", "Germany", "Greece", "Hungary",
   "Ireland", "Italy", "Latvia", "Lithuania", "Luxembourg", "Malta",
   "Netherlands", "Poland", "Portugal", "Romania", "Slovakia", "Slovenia",
   "Spain", "Sweden"}

/-- `constants.FAANG`. -/
def FAANG : Finset String :=
  {"facebook", "meta", "apple", "amazon", "netflix", "google"}

/-- One structured event per `print` site inside the `is_satisfied_by`
methods of `specifications.py`; the full message text is abstracted, the
interpolated candidate name is kept where the source prints one (the
`PositionSpecification` and `WorkExperienceLengthSpecification` messages do
not name the candidate). -/
inductive Msg where
  | employer (firstName lastName : String)
  | location (firstName lastName : String)
  | totalExperience (firstName lastName : String)
  | skills (firstName lastName : String)
  | skillsAtWork (firstName lastName : String)
  | position
  | durationOfEmployment
deriving DecidableEq, Repr

/-- The closed family of specifications of `specifications.py`: one
constructor per concrete `BaseSpecification` dataclass, plus the
`AndSpecification` composite.  Field types mirror the dataclass fields
as the factory populates them: the `skills_at_work` and `position` branches
fill the window via `criteria_value.get('check_last_n_experiences')`, which
yields `None` when the key is absent, hence those windows are optional. -/
inductive Spec where
  | employer (companiesExpected : Finset String)
      (numberOfLastExperiencesToBeChecked : ℕ)
  | location (expectedLocations : Finset String)
  | totalExperience (yearsOfExperienceExpected : ℚ) (comparisonOperand : String)
      (countOverlappingExperiences : Bool)
  | skills (expectedSkills : Finset String) (numberOfHits : Option ℤ)
  | skillsAtWork (expectedSkills : Finset String)
      (numberOfLastExperiencesToBeChecked : Option ℕ) (numberOfHits : Option ℤ)
  | position (positionsExpected : Finset String)
      (numberOfLastExperiencesToBeChecked : Option ℕ)
  | durationOfEmployment (yearsOfExperienceExpected : ℚ)
      (comparisonOperand : String) (numberOfLastExperiencesToBeChecked : ℕ)
  | and_ (first second : Spec)
deriving DecidableEq

/-- Python's `max(experiences, key=...)` with the day-span key
(`specifications.py` lines 243-248): the *first* element attaining the
maximal key (later elements replace the running best only on strictly
greater keys); `none` models the `ValueError` raised on an empty sequence. -/
def firstMaxByDays : List Experience → Option Experience
  | [] => none
  | e :: rest =>
    some (rest.foldl
      (fun best x =>
        if x.endsAt - x.startsAt > best.endsAt - best.startsAt then x else best)
      e)

/-- `is_satisfied_by` for every specification variant, as a pure function
returning the verdict together with the emitted rejection messages; `none`
models a raising evaluation (empty-profile `IndexError` inside
`count_years_of_experience`, `TypeError` on a `None` window, `ValueError` in
`max`, `KeyError` on an unknown comparison operand).  The composite case is
Python's `first.is_satisfied_by(c) and second.is_satisfied_by(c)`: the second
child is evaluated only when the first one is satisfied. -/
def evalSpec : Spec → Profile → Option (Bool × List Msg)
  | .employer companiesExpected n, p =>
    let experiencesToBeChecked := p.get_n_last_experiences n
    let employerNames := LowerCaseFrozenSet
      (experiencesToBeChecked.map fun e => e.companyName)
    if (employerNames ∩ companiesExpected).card ≠ 0 then some (true, [])
    else some (false, [Msg.employer p.firstName p.lastName])
  | .location expectedLocations, p =>
    if p.location.country ∈ expectedLocations ∨ p.location.city ∈ expectedLocations
    then some (true, [])
    else some (false, [Msg.location p.firstName p.lastName])
  | .totalExperience years op countOverlapping, p =>
    match p.count_years_of_experience countOverlapping with
    | none => none
    | some total =>
      match comparison_functions op with
      | none => none
      | some f =>
        if f total years then some (true, [])
        else some (false, [Msg.totalExperience p.firstName p.lastName])
  | .skills expectedSkills numberOfHits, p =>
    let skillsToBeChecked := LowerCaseFrozenSet p.skills
    if has_intersection_or_is_subset skillsToBeChecked expectedSkills numberOfHits
    then some (true, [])
    else some (false, [Msg.skills p.firstName p.lastName])
  | .skillsAtWork expectedSkills nOpt numberOfHits, p =>
    match nOpt with
    | none => none
    | some n =>
      let experiencesToBeChecked := p.get_n_last_experiences n
      let skillsToBeChecked := LowerCaseFrozenSet
        (experiencesToBeChecked.map (fun e => e.skills)).flatten
      if has_intersection_or_is_subset skillsToBeChecked expectedSkills numberOfHits
      then some (true, [])
      else some (false, [Msg.skillsAtWork p.firstName p.lastName])
  | .position positionsExpected nOpt, p =>
    match nOpt with
    | none => none
    | some n =>
      let experiencesToBeChecked := p.get_n_last_experiences n
      let positionsHeld := LowerCaseFrozenSet
        (experiencesToBeChecked.map fun e => e.jobTitle)
      if (positionsHeld ∩ positionsExpected).card ≠ 0 then some (true, [])
      else some (false, [Msg.position])
  | .durationOfEmployment years op n, p =>
    let lastNExperiences := p.get_n_last_experiences n
    match firstMaxByDays lastNExperiences with
    | none => none
    | some longest =>
      let longestInYears := roundedYears (longest.endsAt - longest.startsAt)
      match comparison_functions op with
      | none => none
      | some f =>
        if f longestInYears years then some (true, [])
        else some (false, [Msg.durationOfEmployment])
  | .and_ first second, p =>
    match evalSpec first p with
    | none => none
    | some (b1, m1) =>
      if b1 then
        match evalSpec second p with
        | none => none
        | some (b2, m2) => some (b2, m1 ++ m2)
      else some (false, m1)

/-- The value under the `name` key of a criterion record: a single string for
`employer`, a list of strings for `skills` / `skills_at_work` / `position`. -/
inductive NameVal where
  | str (s : String)
  | strs (l : List String)
deriving DecidableEq, Repr

/-- One criterion's parameter record (`criteria_value` in
`specification_factory`), a JSON object: `none` in a field models an absent
key. -/
structure CriteriaValue where
  name : Option NameVal := none
  countries : Option (List String) := none
  cities : Option (List String) := none
  years : Option ℚ := none
  comparisonOperand : Option String := none
  checkLastNExperiences : Option ℤ := none
  numberOfHits : Option ℤ := none
deriving DecidableEq, Repr

/-- The exceptions `specification_factory` and
`chain_specifications_for_position` can raise: the two explicit
`ValueError`s of the factory, the `ValueError` of the chain builder on an
empty specification list, and the `KeyError` / `TypeError` escapes of a
malformed criterion record. -/
inductive FactoryError where
  | windowLessThanOne (n : ℤ)
  | locationEmpty
  | emptyCriteria
  | keyError (key : String)
  | typeError
deriving DecidableEq, Repr

/-- The `name` value as the iterable Python hands to `LowerCaseFrozenSet`:
iterating a string yields its characters. -/
def nameStrings : NameVal → List String
  | .str s => s.data.map fun c => String.mk [c]
  | .strs l => l

/-- The location branch of `specification_factory` (`specifications.py`
lines 305-314) for a non-empty `countries` list.  The `for index, country in
enumerate(...)` loop returns inside its first iteration, so only `index = 0`
is ever examined: when the first entry upper-cases to `"EU"` the set becomes
`{*countries[:0], *EU_COUNTRIES, *countries[1:]}`, otherwise it stays
`{*countries}`. -/
def buildLocationCountries : List String → Finset String
  | [] => ∅
  | c :: rest =>
    if pyUpper c = "EU" then EU_COUNTRIES ∪ rest.toFinset
    else (c :: rest).toFinset

/-- `specification_factory` (`specifications.py` lines 269-360):
`.ok (some s)` is a returned specification, `.ok none` the `None` fall-through
for an unrecognized criterion name (after the warning print), `.error` a
raised exception. -/
def specification_factory (criteriaName : String) (cv : CriteriaValue) :
    Except FactoryError (Option Spec) := do
  match cv.checkLastNExperiences with
  | some k => if k < 1 then throw (.windowLessThanOne k) else pure ()
  | none => pure ()
  if criteriaName = "employer" then
    match cv.name with
    | none => throw (.keyError "name")
    | some (.strs _) => throw .typeError
    | some (.str s) =>
      let companiesExpected := if s = "FAANG" then FAANG else LowerCaseFrozenSet [s]
      match cv.checkLastNExperiences with
      | none => throw (.keyError "check_last_n_experiences")
      | some k => pure (some (.employer companiesExpected k.toNat))
  else if criteriaName = "location" then
    match cv.countries with
    | none => throw (.keyError "countries")
    | some countriesList =>
      if countriesList = [] then
        match cv.cities with
        | none => throw (.keyError "cities")
        | some citiesList =>
          if citiesList = [] then throw .locationEmpty
          else pure (some (.location citiesList.toFinset))
      else
        pure (some (.location (buildLocationCountries countriesList)))
  else if criteriaName = "experience_total" then
    match cv.years with
    | none => throw (.keyError "years")
    | some y =>
      match cv.comparisonOperand with
      | none => throw (.keyError "comparison_operand")
      | some op => pure (some (.totalExperience y op false))
  else if criteriaName = "skills" then
    match cv.name with
    | none => throw (.keyError "name")
    | some nv =>
      pure (some (.skills (LowerCaseFrozenSet (nameStrings nv)) cv.numberOfHits))
  else if criteriaName = "skills_at_work" then
    match cv.name with
    | none => throw (.keyError "name")
    | some nv =>
      pure (some (.skillsAtWork (LowerCaseFrozenSet (nameStrings nv))
        (cv.checkLastNExperiences.map Int.toNat) cv.numberOfHits))
  else if criteriaName = "position" then
    match cv.name with
    | none => throw (.keyError "name")
    | some nv =>
      pure (some (.position (LowerCaseFrozenSet (nameStrings nv))
        (cv.checkLastNExperiences.map Int.toNat)))
  else if criteriaName = "duration_of_employment" then
    match cv.years with
    | none => throw (.keyError "years")
    | some y =>
      match cv.comparisonOperand with
      | none => throw (.keyError "comparison_operand")
      | some op =>
        match cv.checkLastNExperiences with
        | none => throw (.keyError "check_last_n_experiences")
        | some k => pure (some (.durationOfEmployment y op k.toNat))
  else
    pure none

/-- The `for criteria_name, criteria_value in target_profile_criteria.items()`
loop of `chain_specifications_for_position` (`specifications.py` lines
369-373): build one specification per entry in insertion order, skip `None`
results (every constructed dataclass instance is truthy), propagate the first
raised exception. -/
def buildSpecifications :
    List (String × CriteriaValue) → Except FactoryError (List Spec)
  | [] => .ok []
  | (criteriaName, cv) :: rest => do
    let specOpt ← specification_factory criteriaName cv
    let others ← buildSpecifications rest
    match specOpt with
    | some s => pure (s :: others)
    | none => pure others

/-- `chain_specifications_for_position` (`specifications.py` lines 363-382):
`specifications[0]` on an empty list raises `IndexError`, re-raised as
`ValueError` (`.emptyCriteria`); otherwise the remaining specifications are
folded left-to-right with `and_`.  The mapping is modelled as its
insertion-ordered entry list. -/
def chain_specifications_for_position
    (targetProfileCriteria : List (String × CriteriaValue)) :
    Except FactoryError Spec := do
  let specifications ← buildSpecifications targetProfileCriteria
  match specifications with
  | [] => throw .emptyCriteria
  | s :: rest => pure (rest.foldl Spec.and_ s)

/-! ## Concrete records used in witnesses and counterexamples -/

instance {ε α : Type} [DecidableEq ε] [DecidableEq α] : DecidableEq (Except ε α) :=
  fun x y =>
    match x, y with
    | .ok a, .ok b => if h : a = b then isTrue (by rw [h]) else isFalse (by simp [h])
    | .error a, .error b =>
      if h : a = b then isTrue (by rw [h]) else isFalse (by simp [h])
    | .ok _, .error _ => isFalse (by simp)
    | .error _, .ok _ => isFalse (by simp)

/-- A raw experience record with the given date range and fixed filler
fields. -/
def mkRaw (startsAt : ℤ) (endsAt : Option ℤ) : RawExperience :=
  { companyName := "c", jobTitle := "j", description := "", skills := [],
    startsAt := startsAt, endsAt := endsAt, location := ⟨"x", "y"⟩ }

/-- The normalized experience corresponding to `mkRaw`. -/
def mkExp (startsAt endsAt : ℤ) : Experience :=
  { companyName := "c", jobTitle := "j", description := "", skills := [],
    startsAt := startsAt, endsAt := endsAt, location := ⟨"x", "y"⟩ }

/-- A profile with the given experiences and fixed filler fields. -/
def mkProfile (experiences : List Experience) : Profile :=
  { firstName := "F", lastName := "L", skills := [], description := "",
    location := ⟨"x", "y"⟩, experiences := experiences }

/-! ## Properties of the interval merger -/

/-- `mergeAux` never changes the start of the interval currently being
extended: the head of its output keeps `cur`'s start. -/
theorem mergeAux_head (l : List Interval) :
    ∀ cur : Interval, ∃ e' tl, mergeAux cur l = (cur.1, e') :: tl := by
  induction l with
  | nil => intro cur; exact ⟨cur.2, [], rfl⟩
  | cons i rest ih =>
    intro cur
    obtain ⟨s, e⟩ := i
    by_cases h : s ≤ cur.2
    · obtain ⟨e', tl, hrec⟩ := ih (cur.1, max cur.2 e)
      exact ⟨e', tl, by simp [mergeAux, h, hrec]⟩
    · exact ⟨cur.2, mergeAux (s, e) rest, by simp [mergeAux, h]⟩

/-- Consecutive intervals produced by `mergeAux` are separated by a strict
gap: each interval is emitted exactly when the next start exceeds its end. -/
theorem mergeAux_chain (l : List Interval) :
    ∀ cur : Interval, (mergeAux cur l).Chain' (fun a b => a.2 < b.1) := by
  induction l with
  | nil => intro cur; simp [mergeAux]
  | cons i rest ih =>
    intro cur
    obtain ⟨s, e⟩ := i
    by_cases h : s ≤ cur.2
    · simpa [mergeAux, h] using ih (cur.1, max cur.2 e)
    · obtain ⟨e', tl, hrec⟩ := mergeAux_head rest (s, e)
      have hchain := ih (s, e)
      rw [hrec] at hchain
      simp only [mergeAux, h, if_false]
      rw [hrec]
      exact List.Chain'.cons (by omega) hchain

/-- `mergeAux` leaves a gap-separated list unchanged. -/
theorem mergeAux_of_chain (l : List Interval) :
    ∀ cur : Interval, (cur :: l).Chain' (fun a b => a.2 < b.1) →
      mergeAux cur l = cur :: l := by
  induction l with
  | nil => intro cur _; rfl
  | cons i rest ih =>
    intro cur hchain
    obtain ⟨s, e⟩ := i
    have hgap : cur.2 < s := (List.chain'_cons.mp hchain).1
    have hrest := (List.chain'_cons.mp hchain).2
    have h : ¬ s ≤ cur.2 := by omega
    simp [mergeAux, h, ih (s, e) hrest]

/-- Merging cannot increase the summed day span, provided every interval in
the tail has a nonnegative span: extending the current end to
`max cur.2 e` absorbs at most the `e - s` days the dropped interval would
have contributed. -/
theorem mergeAux_sumDays_le (l : List Interval) :
    ∀ cur : Interval, (∀ i ∈ l, i.1 ≤ i.2) →
      sumDays (mergeAux cur l) ≤ (cur.2 - cur.1) + sumDays l := by
  induction l with
  | nil => intro cur _; simp [mergeAux, sumDays]
  | cons i rest ih =>
    intro cur hv
    obtain ⟨s, e⟩ := i
    have hse : s ≤ e := hv (s, e) (by simp)
    have hvrest : ∀ i ∈ rest, i.1 ≤ i.2 := fun i hi => hv i (by simp [hi])
    by_cases h : s ≤ cur.2
    · have := ih (cur.1, max cur.2 e) hvrest
      simp only [mergeAux, h, if_true]
      simp only [sumDays, List.map_cons, List.sum_cons] at this ⊢
      have hmax : max cur.2 e - cur.1 ≤ (cur.2 - cur.1) + (e - s) := by
        rcases max_cases cur.2 e with ⟨hm, _⟩ | ⟨hm, _⟩ <;> omega
      omega
    · have := ih (s, e) hvrest
      simp only [mergeAux, h, if_false]
      simp only [sumDays, List.map_cons, List.sum_cons] at this ⊢
      omega

/-- `roundedYears` is monotone in the day count. -/
theorem roundedYears_mono {d1 d2 : ℤ} (h : d1 ≤ d2) :
    roundedYears d1 ≤ roundedYears d2 := by
  unfold roundedYears
  have hd : (d1 : ℚ) ≤ (d2 : ℚ) := by exact_mod_cast h
  have h365 : (0 : ℚ) < ((NUMBER_OF_DAYS_IN_ONE_YEAR : ℤ) : ℚ) := by
    norm_num [NUMBER_OF_DAYS_IN_ONE_YEAR]
  have hq : (d1 : ℚ) * 10 / ((NUMBER_OF_DAYS_IN_ONE_YEAR : ℤ) : ℚ) ≤
      (d2 : ℚ) * 10 / ((NUMBER_OF_DAYS_IN_ONE_YEAR : ℤ) : ℚ) :=
    (div_le_div_iff_of_pos_right h365).mpr (by linarith)
  have hr : round ((d1 : ℚ) * 10 / ((NUMBER_OF_DAYS_IN_ONE_YEAR : ℤ) : ℚ)) ≤
      round ((d2 : ℚ) * 10 / ((NUMBER_OF_DAYS_IN_ONE_YEAR : ℤ) : ℚ)) := by
    rw [round_eq, round_eq]
    exact Int.floor_le_floor (by linarith)
  have hc : ((round ((d1 : ℚ) * 10 / ((NUMBER_OF_DAYS_IN_ONE_YEAR : ℤ) : ℚ)) : ℤ) : ℚ) ≤
      ((round ((d2 : ℚ) * 10 / ((NUMBER_OF_DAYS_IN_ONE_YEAR : ℤ) : ℚ)) : ℤ) : ℚ) := by
    exact_mod_cast hr
  have h10 : (0 : ℚ) < 10 := by norm_num
  exact (div_le_div_iff_of_pos_right h10).mpr hc

/-! ## Unfolding lemmas for the `Except` monad -/

@[simp]
theorem exceptPure_eq_ok {ε α : Type} (a : α) :
    (pure a : Except ε α) = Except.ok a := rfl

@[simp]
theorem exceptThrow_eq_error {ε α : Type} (e : ε) :
    (throw e : Except ε α) = Except.error e := rfl

@[simp]
theorem exceptBind_ok {ε α β : Type} (a : α) (f : α → Except ε β) :
    (Except.ok a : Except ε α) >>= f = f a := rfl

@[simp]
theorem exceptBind_error {ε α β : Type} (e : ε) (f : α → Except ε β) :
    (Except.error e : Except ε α) >>= f = Except.error e := rfl

/-! ## Claim C1 -/

/-- C1: the claim states that `count_years_of_experience` with
`count_overlapping_experiences = false` is well-defined for every profile
because the Profile Model guards the non-empty precondition of
`merge_intervals`.  No such guard exists: `count_years_of_experience` calls
`merge_intervals` unconditionally, so a profile with zero experiences reaches
`intervals[0]` on an empty list and raises `IndexError` (modelled `none`)
instead of yielding a total, while the overlap-counting variant returns
`0.0`. -/
theorem c1_empty_profile_unguarded :
    (mkProfile []).count_years_of_experience false = none ∧
    (mkProfile []).count_years_of_experience true = some 0 ∧
    merge_intervals [] = none := by
  refine ⟨by decide, ?_, rfl⟩
  simp [Profile.count_years_of_experience, mkProfile, getExperiencesSortedBy,
    sumDays, roundedYears, NUMBER_OF_DAYS_IN_ONE_YEAR, round_eq,
    List.insertionSort]
  norm_num

/-! ## Claim C2 -/

/-- C2: the claim states that after construction every experience violating
`starts_at < ends_at` (after normalization) has been dropped, even when
several invalid entries are consecutive.  Deleting by index while iterating
skips the entry that shifts into the freed slot: on two consecutive invalid
experiences the validator deletes the first and keeps the second, so the
constructed list still contains an experience with `starts_at >= ends_at`,
contradicting both the claim and the method's own docstring. -/
theorem c2_consecutive_invalid_survives :
    check_start_date_precedes_end_date 9999
        [mkRaw 100 (some 50), mkRaw 100 (some 50)] = [mkRaw 100 (some 50)] ∧
    ¬ (∀ e ∈ check_start_date_precedes_end_date 9999
        [mkRaw 100 (some 50), mkRaw 100 (some 50)],
        ∀ d, e.endsAt = some d → e.startsAt < d) := by
  decide

/-! ## Claim C8 -/

/-- C8: `merge_intervals` is idempotent — for a non-empty input list
pre-sorted ascending by start, merging the merged output again returns it
unchanged.  (The proof uses only the gap invariant of the output, which
holds for any non-empty input.) -/
theorem c8_merge_idempotent (l m : List Interval)
    (hsorted : l.Sorted (fun a b : Interval => a.1 ≤ b.1))
    (h : merge_intervals l = some m) :
    merge_intervals m = some m := by
  match l, h with
  | i :: rest, h =>
    have hm : m = mergeAux i rest := by
      simpa [merge_intervals] using h.symm
    obtain ⟨e', tl, hhead⟩ := mergeAux_head rest i
    have hchain : m.Chain' (fun a b => a.2 < b.1) := hm ▸ mergeAux_chain rest i
    rw [hm, hhead] at hchain ⊢
    simp only [merge_intervals, Option.some.injEq]
    exact mergeAux_of_chain tl (i.1, e') hchain

/-- Witness for C8 at a concrete sorted two-interval overlap. -/
theorem c8_merge_idempotent_witness :
    merge_intervals [((0 : ℤ), (3 : ℤ))] = some [((0 : ℤ), (3 : ℤ))] :=
  c8_merge_idempotent [(0, 2), (1, 3)] [(0, 3)] (by decide) (by decide)

/-! ## Claim C3 -/

instance (key : Experience → ℤ) :
    IsTotal Experience (fun a b => key a ≤ key b) :=
  ⟨fun a b => le_total (key a) (key b)⟩

instance (key : Experience → ℤ) :
    IsTrans Experience (fun a b => key a ≤ key b) :=
  ⟨fun _ _ _ => le_trans⟩

/-- Shorthand for the sort underlying `get_n_last_experiences`. -/
def sortedByEnds (p : Profile) : List Experience :=
  getExperiencesSortedBy (fun e => e.endsAt) p.experiences

/-- Unfolding lemma for `get_n_last_experiences` in terms of
`sortedByEnds`. -/
theorem get_n_last_experiences_eq (p : Profile) (n : ℕ) :
    p.get_n_last_experiences n =
      if (sortedByEnds p).length ≤ n then sortedByEnds p
      else ((sortedByEnds p).drop ((sortedByEnds p).length - n)).reverse := rfl

/-- C3 counterexample: for a profile with two experiences and `n = 2`
(so `n` is at least the number of experiences), `get_n_last_experiences`
returns the experiences in *ascending* order of `ends_at`, not in the
descending most-recent-first order the claim requires. -/
theorem c3_counterexample :
    (mkProfile [mkExp 0 200, mkExp 0 100]).get_n_last_experiences 2 =
      [mkExp 0 100, mkExp 0 200] ∧
    (mkProfile [mkExp 0 200, mkExp 0 100]).experiences.length ≤ 2 ∧
    ¬ ((mkProfile [mkExp 0 200, mkExp 0 100]).get_n_last_experiences 2).Sorted
        (fun a b : Experience => b.endsAt ≤ a.endsAt) := by
  decide

/-- C3 as amended: when `n` is at least the number of experiences,
`get_n_last_experiences` returns all experiences sorted *ascending* by
`ends_at`; when `n` is smaller it returns exactly the `n` experiences with
the latest `ends_at` (the suffix of the ascending sort, each at least as
recent as every dropped one), most recent first. -/
theorem c3_amended (p : Profile) (n : ℕ) :
    (p.experiences.length ≤ n →
      p.get_n_last_experiences n = sortedByEnds p ∧
      (p.get_n_last_experiences n).Sorted (fun a b => a.endsAt ≤ b.endsAt) ∧
      (p.get_n_last_experiences n).Perm p.experiences) ∧
    (n < p.experiences.length →
      p.get_n_last_experiences n =
        ((sortedByEnds p).drop (p.experiences.length - n)).reverse ∧
      (p.get_n_last_experiences n).length = n ∧
      (p.get_n_last_experiences n).Sorted (fun a b => b.endsAt ≤ a.endsAt) ∧
      ∀ x ∈ p.get_n_last_experiences n,
        ∀ y ∈ (sortedByEnds p).take (p.experiences.length - n),
          y.endsAt ≤ x.endsAt) := by
  have hlen : (sortedByEnds p).length = p.experiences.length := by
    unfold sortedByEnds getExperiencesSortedBy
    exact List.length_insertionSort (fun a b : Experience => a.endsAt ≤ b.endsAt)
      p.experiences
  have hsorted : (sortedByEnds p).Sorted (fun a b => a.endsAt ≤ b.endsAt) := by
    unfold sortedByEnds getExperiencesSortedBy
    exact List.sorted_insertionSort (fun a b : Experience => a.endsAt ≤ b.endsAt)
      p.experiences
  have hperm : (sortedByEnds p).Perm p.experiences := by
    unfold sortedByEnds getExperiencesSortedBy
    exact List.perm_insertionSort (fun a b : Experience => a.endsAt ≤ b.endsAt)
      p.experiences
  constructor
  · intro h
    have hif : p.get_n_last_experiences n = sortedByEnds p := by
      rw [get_n_last_experiences_eq, if_pos (by omega)]
    exact ⟨hif, hif ▸ hsorted, hif ▸ hperm⟩
  · intro h
    have hif : p.get_n_last_experiences n =
        ((sortedByEnds p).drop (p.experiences.length - n)).reverse := by
      rw [get_n_last_experiences_eq, if_neg (by omega), hlen]
    refine ⟨hif, ?_, ?_, ?_⟩
    · rw [hif, List.length_reverse, List.length_drop, hlen]
      omega
    · rw [hif]
      rw [List.Sorted, List.pairwise_reverse]
      exact List.Pairwise.drop hsorted
    · intro x hx y hy
      rw [hif, List.mem_reverse] at hx
      exact hsorted.rel_of_mem_take_of_mem_drop hy hx

/-- Witness for C3 as amended, exercising both branches on a concrete
profile. -/
theorem c3_amended_witness :
    (mkProfile [mkExp 0 200, mkExp 0 100]).get_n_last_experiences 2 =
      sortedByEnds (mkProfile [mkExp 0 200, mkExp 0 100]) ∧
    ((mkProfile [mkExp 0 200, mkExp 0 100]).get_n_last_experiences 1).length = 1 :=
  ⟨((c3_amended (mkProfile [mkExp 0 200, mkExp 0 100]) 2).1 (by decide)).1,
   ((c3_amended (mkProfile [mkExp 0 200, mkExp 0 100]) 1).2 (by decide)).2.1⟩

/-! ## Claim C7 -/

/-- C7 counterexample: the constructor's validator, fed three raw
experiences of which the first two are invalid, deletes the first and keeps
the second (see C2), yielding a reachable profile that still contains an
experience whose `ends_at` precedes its `starts_at` by 366 days.  On that
profile merging first *absorbs* the negative-span interval, so the
non-overlap total (1.0 years) strictly exceeds the overlap-counting total
(0.0 years), refuting the claimed inequality. -/
theorem c7_counterexample :
    ((check_start_date_precedes_end_date 9999
        [mkRaw 100 (some 50), mkRaw 1152 (some 786), mkRaw 1000 (some 1365)]).mapM
      RawExperience.normalize = some [mkExp 1152 786, mkExp 1000 1365]) ∧
    (mkProfile [mkExp 1152 786, mkExp 1000 1365]).count_years_of_experience false =
      some 1 ∧
    (mkProfile [mkExp 1152 786, mkExp 1000 1365]).count_years_of_experience true =
      some 0 ∧
    ¬ ((1 : ℚ) ≤ 0) := by
  refine ⟨by decide, ?_, ?_, by norm_num⟩ <;>
  · simp [Profile.count_years_of_experience, mkProfile, mkExp,
      getExperiencesSortedBy, List.insertionSort, List.orderedInsert,
      merge_intervals, mergeAux, sumDays, roundedYears,
      NUMBER_OF_DAYS_IN_ONE_YEAR, round_eq]
    norm_num

/-- C7 as amended: for every profile with at least one experience, all of
whose experiences satisfy the intended `starts_at < ends_at` invariant, the
non-overlap total (`count_overlapping_experiences = false`) is at most the
overlap-counting total. -/
theorem c7_amended (p : Profile) (hne : p.experiences ≠ [])
    (hvalid : ∀ e ∈ p.experiences, e.startsAt < e.endsAt) :
    ∃ a b, p.count_years_of_experience false = some a ∧
      p.count_years_of_experience true = some b ∧ a ≤ b := by
  have hperm : (getExperiencesSortedBy (fun e => e.startsAt) p.experiences).Perm
      p.experiences := List.perm_insertionSort _ _
  have hsne : getExperiencesSortedBy (fun e => e.startsAt) p.experiences ≠ [] := by
    intro h0
    apply hne
    have := hperm.length_eq
    rw [h0] at this
    exact List.length_eq_zero.mp this.symm
  obtain ⟨e0, srest, hcons⟩ := List.exists_cons_of_ne_nil hsne
  have hvalidRest : ∀ i ∈ srest.map (fun e => (e.startsAt, e.endsAt)),
      i.1 ≤ i.2 := by
    intro i hi
    obtain ⟨e, he, rfl⟩ := List.mem_map.mp hi
    have hmem : e ∈ p.experiences := by
      apply hperm.mem_iff.mp
      rw [hcons]
      exact List.mem_cons_of_mem _ he
    exact le_of_lt (hvalid e hmem)
  have hsum : sumDays (mergeAux (e0.startsAt, e0.endsAt)
        (srest.map (fun e => (e.startsAt, e.endsAt)))) ≤
      sumDays ((e0.startsAt, e0.endsAt) ::
        srest.map (fun e => (e.startsAt, e.endsAt))) := by
    have := mergeAux_sumDays_le (srest.map (fun e => (e.startsAt, e.endsAt)))
      (e0.startsAt, e0.endsAt) hvalidRest
    simp only [sumDays, List.map_cons, List.sum_cons] at this ⊢
    omega
  refine ⟨_, _, ?_, ?_, roundedYears_mono hsum⟩
  · simp only [Profile.count_years_of_experience, hcons, List.map_cons,
      merge_intervals, if_false, Bool.false_eq_true, Option.map_some']
  · simp only [Profile.count_years_of_experience, hcons, List.map_cons,
      if_true, Option.map_some']

/-- Witness for C7 as amended on a one-experience profile. -/
theorem c7_amended_witness :
    ∃ a b, (mkProfile [mkExp 0 365]).count_years_of_experience false = some a ∧
      (mkProfile [mkExp 0 365]).count_years_of_experience true = some b ∧ a ≤ b :=
  c7_amended (mkProfile [mkExp 0 365]) (by decide) (by decide)

/-! ## Claim C4 -/

/-- C4 counterexample: an `AndSpecification` of two leaves that are both
unsatisfied by the profile emits only the *first* child's rejection message:
the second child, evaluated on its own, fails with its own message, but that
message is absent from the composite's output because Python's `and`
short-circuits — refuting the claim that both children are always
evaluated and both messages emitted. -/
theorem c4_counterexample :
    evalSpec (Spec.and_ (.location ∅) (.position ∅ (some 1))) (mkProfile []) =
      some (false, [Msg.location "F" "L"]) ∧
    evalSpec (.position ∅ (some 1)) (mkProfile []) =
      some (false, [Msg.position]) ∧
    Msg.position ∉ [Msg.location "F" "L"] := by
  decide

/-- C4 as amended: the composite short-circuits.  When the first child is
unsatisfied, the composite returns `false` with exactly the first child's
messages, independently of the second child; when the first child is
satisfied, the composite's result is the second child's verdict with the
messages concatenated; and whenever both children evaluate, the composite's
verdict is the logical AND of theirs. -/
theorem c4_amended (s t : Spec) (p : Profile) :
    (∀ m1, evalSpec s p = some (false, m1) →
      evalSpec (Spec.and_ s t) p = some (false, m1)) ∧
    (∀ m1 r, evalSpec s p = some (true, m1) → evalSpec t p = r →
      evalSpec (Spec.and_ s t) p = r.map fun br => (br.1, m1 ++ br.2)) ∧
    (∀ b1 m1 b2 m2 b mr, evalSpec s p = some (b1, m1) →
      evalSpec t p = some (b2, m2) →
      evalSpec (Spec.and_ s t) p = some (b, mr) → b = (b1 && b2)) := by
  refine ⟨?_, ?_, ?_⟩
  · intro m1 h1
    simp [evalSpec, h1]
  · intro m1 r h1 h2
    subst h2
    cases hr : evalSpec t p with
    | none => simp [evalSpec, h1, hr]
    | some br => obtain ⟨b2, m2⟩ := br; simp [evalSpec, h1, hr]
  · intro b1 m1 b2 m2 b mr h1 h2 hand
    cases b1 with
    | false =>
      simp only [evalSpec, h1, Bool.false_eq_true, if_false,
        Option.some.injEq, Prod.mk.injEq] at hand
      simp [hand.1]
    | true =>
      simp only [evalSpec, h1, if_true, h2, Option.some.injEq,
        Prod.mk.injEq] at hand
      simp [hand.1]

/-- Witness for C4 as amended: the short-circuit case at two concrete
failing leaves. -/
theorem c4_amended_witness :
    evalSpec (Spec.and_ (.location ∅) (.location ∅)) (mkProfile []) =
      some (false, [Msg.location "F" "L"]) :=
  (c4_amended (.location ∅) (.location ∅) (mkProfile [])).1
    [Msg.location "F" "L"] (by decide)

/-! ## Claim C5 -/

/-- C5 counterexample: a location criterion whose countries list is
`["Spain", "EU"]` — the EU token at index 1 alongside one literal country —
produces the literal two-element set `{"Spain", "EU"}` and *not* the
27-country EU set united with `{"Spain"}`: `"Austria"` belongs to the
claimed expansion but not to the built specification's expected set,
because the factory's loop returns during its first iteration and only an
EU token at index 0 is ever expanded. -/
theorem c5_counterexample :
    specification_factory "location"
        { countries := some ["Spain", "EU"], cities := some [] } =
      .ok (some (.location ({"Spain", "EU"} : Finset String))) ∧
    "Austria" ∈ EU_COUNTRIES ∧
    "Austria" ∉ ({"Spain", "EU"} : Finset String) := by
  decide

/-- C5 as amended: the EU token (case-insensitive) is expanded only when it
is the *first* element of the countries list, in which case the expected set
is the 27-country EU set united with the remaining entries; any countries
list whose first element is not the EU token is taken literally. -/
theorem c5_amended (c : String) (rest : List String)
    (cities : Option (List String)) :
    (pyUpper c = "EU" →
      specification_factory "location"
          { countries := some (c :: rest), cities := cities } =
        .ok (some (.location (EU_COUNTRIES ∪ rest.toFinset)))) ∧
    (pyUpper c ≠ "EU" →
      specification_factory "location"
          { countries := some (c :: rest), cities := cities } =
        .ok (some (.location (c :: rest).toFinset))) := by
  constructor
  · intro h
    simp [specification_factory, buildLocationCountries, h]
  · intro h
    simp [specification_factory, buildLocationCountries, h]

/-- Witness for C5 as amended: a lower-case EU token at index 0 expands. -/
theorem c5_amended_witness :
    specification_factory "location"
        { countries := some ["eu", "Spain"], cities := some [] } =
      .ok (some (.location (EU_COUNTRIES ∪ (["Spain"] : List String).toFinset))) :=
  (c5_amended "eu" ["Spain"] (some [])).1 (by decide)

/-! ## Claim C6 -/

/-- C6 counterexample: with a specified hit count of `0` and identical
singleton sets, the hit rule is satisfied even though the intersection size
is `1 ≠ 0` — `if number_of_hits:` treats `0` like an absent count and falls
through to the subset test, refuting the claimed exact-count semantics for
`k = 0`. -/
theorem c6_counterexample :
    has_intersection_or_is_subset (LowerCaseFrozenSet ["a"])
        (LowerCaseFrozenSet ["a"]) (some 0) = true ∧
    ((LowerCaseFrozenSet ["a"] ∩ LowerCaseFrozenSet ["a"]).card : ℤ) ≠ 0 := by
  decide

/-- C6 as amended: on lower-cased representations, a *nonzero* specified
hit count `k` makes the rule hold iff the intersection has exactly `k`
elements, while a hit count of `0` — exactly like an absent hit count —
makes it hold iff the expected set is a subset of the evaluated set. -/
theorem c6_amended (evaluated required : List String) (k : ℤ) :
    (k ≠ 0 →
      (has_intersection_or_is_subset (LowerCaseFrozenSet evaluated)
          (LowerCaseFrozenSet required) (some k) = true ↔
        ((LowerCaseFrozenSet evaluated ∩ LowerCaseFrozenSet required).card : ℤ) =
          k)) ∧
    (has_intersection_or_is_subset (LowerCaseFrozenSet evaluated)
        (LowerCaseFrozenSet required) (some 0) = true ↔
      LowerCaseFrozenSet required ⊆ LowerCaseFrozenSet evaluated) ∧
    (has_intersection_or_is_subset (LowerCaseFrozenSet evaluated)
        (LowerCaseFrozenSet required) none = true ↔
      LowerCaseFrozenSet required ⊆ LowerCaseFrozenSet evaluated) := by
  refine ⟨fun h => ?_, ?_, ?_⟩ <;>
    simp [has_intersection_or_is_subset, *]

/-- Witness for C6 as amended: the spec's own example — expected
`{"Miro", "Sketch"}`, hit count `2`, evaluated `{"miro", "sketch", "figma"}`
— is satisfied by an exact case-insensitive count match. -/
theorem c6_amended_witness :
    has_intersection_or_is_subset (LowerCaseFrozenSet ["miro", "sketch", "figma"])
      (LowerCaseFrozenSet ["Miro", "Sketch"]) (some 2) = true :=
  ((c6_amended ["miro", "sketch", "figma"] ["Miro", "Sketch"] 2).1
    (by decide)).mpr (by decide)

/-! ## Claim C9 -/

/-- C9 counterexample: a configuration whose first criterion builds a valid
skills specification and whose second criterion has `check_last_n = 0` makes
`chain_specifications_for_position` raise a fatal configuration error (the
propagated window `ValueError`) even though a valid specification was built
— refuting "raises a fatal configuration error iff zero valid
specifications remain". -/
theorem c9_counterexample :
    chain_specifications_for_position
        [("skills", { name := some (.strs ["python"]) }),
         ("employer", { name := some (.str "X"), checkLastNExperiences := some 0 })] =
      .error (.windowLessThanOne 0) ∧
    specification_factory "skills" { name := some (.strs ["python"]) } =
      .ok (some (.skills ({"python"} : Finset String) none)) := by
  decide

/-- C9 as amended: provided no criterion makes the factory itself raise
(each entry builds either a specification or the unrecognized-name `None`),
the chain builder raises a fatal configuration error iff the built
specification list is empty, and otherwise returns the left-to-right
AND-fold of the built specifications in insertion order. -/
theorem c9_amended (config : List (String × CriteriaValue)) (specs : List Spec)
    (h : buildSpecifications config = .ok specs) :
    ((∃ e, chain_specifications_for_position config = .error e) ↔ specs = []) ∧
    (∀ s rest, specs = s :: rest →
      chain_specifications_for_position config = .ok (rest.foldl Spec.and_ s)) := by
  cases specs with
  | nil =>
    have hch : chain_specifications_for_position config =
        .error .emptyCriteria := by
      simp only [chain_specifications_for_position, h, exceptBind_ok,
        exceptThrow_eq_error]
    constructor
    · simp [hch]
    · intro s rest hcontra
      exact absurd hcontra (by simp)
  | cons s0 rest0 =>
    have hch : chain_specifications_for_position config =
        .ok (rest0.foldl Spec.and_ s0) := by
      simp only [chain_specifications_for_position, h, exceptBind_ok,
        exceptPure_eq_ok]
    constructor
    · constructor
      · rintro ⟨e, he⟩
        rw [hch] at he
        exact absurd he (by simp)
      · intro hcontra
        exact absurd hcontra (by simp)
    · intro s rest heq
      injection heq with h1 h2
      subst h1
      subst h2
      exact hch

/-- Witness for C9 as amended: one unrecognized criterion plus one valid
skills criterion folds to the single built specification. -/
theorem c9_amended_witness :
    chain_specifications_for_position
        [("bogus", {}), ("skills", { name := some (.strs ["python"]) })] =
      .ok (.skills ({"python"} : Finset String) none) :=
  (c9_amended [("bogus", {}), ("skills", { name := some (.strs ["python"]) })]
    [.skills ({"python"} : Finset String) none] (by decide)).2
    (.skills ({"python"} : Finset String) none) [] rfl

/-! ## Claim C10 -/

/-- C10: when a location criterion's countries list is non-empty, the built
`LocationSpecification`'s expected set is derived from the countries list
only — the cities value is ignored entirely (it is not even read, thanks to
the short-circuit in `not countries and not cities`), so a profile whose
city appears only in the configured cities list and matches nothing in the
countries-derived set is not satisfied; the cities list is consulted only
when the countries list is empty. -/
theorem c10_cities_ignored_when_countries_present :
    (∀ (countries : List String) (cities cities' : Option (List String)),
      countries ≠ [] →
      specification_factory "location"
          { countries := some countries, cities := cities } =
        specification_factory "location"
          { countries := some countries, cities := cities' }) ∧
    (∀ (countries : List String) (cities : Option (List String)),
      countries ≠ [] →
      specification_factory "location"
          { countries := some countries, cities := cities } =
        .ok (some (.location (buildLocationCountries countries)))) ∧
    (∀ (countries cities : List String) (p : Profile),
      countries ≠ [] →
      p.location.city ∈ cities →
      p.location.city ∉ buildLocationCountries countries →
      p.location.country ∉ buildLocationCountries countries →
      evalSpec (.location (buildLocationCountries countries)) p =
        some (false, [Msg.location p.firstName p.lastName])) ∧
    (∀ cities : List String, cities ≠ [] →
      specification_factory "location"
          { countries := some [], cities := some cities } =
        .ok (some (.location cities.toFinset))) := by
  refine ⟨?_, ?_, ?_, ?_⟩
  · intro countries cities cities' hne
    simp [specification_factory, hne]
  · intro countries cities hne
    simp [specification_factory, hne]
  · intro countries cities p _ _ hcity hcountry
    simp [evalSpec, hcity, hcountry]
  · intro cities hne
    simp [specification_factory, hne]

/-- Witness for C10: countries `["Germany"]` with cities `["Berlin"]` and a
candidate living in Berlin, France — the city matches the configured cities
list but the specification, built from countries only, rejects. -/
theorem c10_witness :
    evalSpec (.location (buildLocationCountries ["Germany"]))
        { firstName := "F", lastName := "L", skills := [], description := "",
          location := ⟨"Berlin", "France"⟩, experiences := [] } =
      some (false, [Msg.location "F" "L"]) :=
  c10_cities_ignored_when_countries_present.2.2.1 ["Germany"] ["Berlin"]
    { firstName := "F", lastName := "L", skills := [], description := "",
      location := ⟨"Berlin", "France"⟩, experiences := [] }
    (by decide) (by decide) (by decide) (by decide)

end MatchService
